import Mathlib

/-!
# ip/ipnetns.c — namespace identification and namespace-switched execution

A shallow embedding of `ip/ipnetns.c` (with `struct nic_info` from
`ip/ip_common.h`).  Library and system calls are events of a trace whose
results come from an environment record; the two file-scope statics
(`rtnsh.fd`, `have_rtnl_getnsid`) are fields of an explicit state.

A C string is a `List Nat`: the bytes stored from the pointer on.  The string
ends at the first 0 byte, or at the end of the list (the terminator is then
the byte that follows and is not stored).
-/

namespace Ipnetns

/-! ## C strings -/

/-- Bytes of memory starting at a `char *`. -/
abbrev CStr := List Nat

/-- The string stored at a pointer: the bytes before the first NUL. -/
def cstr : CStr → CStr
  | [] => []
  | c :: cs => if c = 0 then [] else c :: cstr cs

/-- The function `strlen(3)`: number of bytes before the terminator. -/
def strlen : CStr → Nat
  | [] => 0
  | c :: cs => if c = 0 then 0 else strlen cs + 1

/-- The function `strchr(3)`: offset of the first occurrence of `c`, `none` for a NULL
result.  The terminator is part of the string, so `c = 0` is found at the
end. -/
def strchr : CStr → Nat → Option Nat
  | [], c => if c = 0 then some 0 else none
  | x :: xs, c =>
    if x = c then some 0
    else if x = 0 then none
    else (strchr xs c).map (· + 1)

/-- The function `strcmp(3)`: difference of the first pair of bytes that differ (compared
as `unsigned char`), 0 when the strings are equal. -/
def strcmp : CStr → CStr → Int
  | [], [] => 0
  | [], b :: _ => 0 - (b : Int)
  | a :: _, [] => (a : Int) - 0
  | a :: as, b :: bs =>
    if a = b then (if a = 0 then 0 else strcmp as bs) else (a : Int) - (b : Int)

/-- ASCII text as bytes (for writing concrete inputs). -/
def ascii (s : String) : CStr := s.data.map Char.toNat

/-- The value of `NAME_MAX` in `<linux/limits.h>`. -/
def NAME_MAX : Nat := 255

/-- The value of `PATH_MAX` in `<linux/limits.h>`. -/
def PATH_MAX : Nat := 4096

/-- C truth value of a condition. -/
def cbool (b : Bool) : Int := if b then 1 else 0

/-- Function `invalid_name` (ipnetns.c:207-211):
`!*name || strlen(name) > NAME_MAX || strchr(name, '/') || !strcmp(name, ".") || !strcmp(name, "..")`. -/
def invalid_name (name : CStr) : Int :=
  cbool (name.headD 0 == 0 || decide (strlen name > NAME_MAX) ||
    (strchr name 47).isSome || strcmp name [46] == 0 || strcmp name [46, 46] == 0)

/-! ## Machine integers -/

/-- Reduction of an integer to the range of a 32-bit `int`. -/
def int_wrap (x : Int) : Int := (x + 2 ^ 31) % 2 ^ 32 - 2 ^ 31

/-- Unary minus on an `int` (two's complement; `-INT_MIN` has no defined
value in C and wraps to `INT_MIN` here). -/
def int_neg (x : Int) : Int := int_wrap (-x)

/-- Conversion of an `int` argument to `size_t` (64 bits). -/
def size_t_of_int (x : Int) : Nat := (x % 2 ^ 64).toNat

/-- Size of an `int` in bytes. -/
def sizeof_int : Nat := 4

/-- Size of `struct nic_info` (ip_common.h:69-72):
`int if_index[1024]; char if_name[1024][20];`. -/
def sizeof_struct_nic_info : Nat := 1024 * sizeof_int + 1024 * 20

/-! ## Events, state, environment -/

/-- Functions passed to `cmd_exec` as its `setup` argument. -/
inductive SetupFn
  | do_switch
  deriving DecidableEq, Repr

/-- Calls into libc, libnetlink and the rest of the tool, in program order.
A pointer argument that may be NULL (an `argv` slot read past the last
argument) is an `Option`. -/
inductive Event
  | open_ (path : CStr)
  | close
  | addattr32
  | rtnl_send
  | rtnl_listen
  | rtnl_open
  | shmget (size : Nat)
  | shmat (shmid : Int)
  | strcat (shmid : Int)
  | make_iflist
  | vrf_reset
  | netns_switch (name : Option CStr)
  | cmd_exec (cmd : Option CStr) (argv : List CStr) (do_fork : Bool)
      (setup : SetupFn) (arg : Option CStr)
  | netns_foreach
  | stdout (text : CStr)
  | stderr (msg : String)
  | perror (msg : String)
  deriving DecidableEq, Repr

/-- How a call ends: it returns a value, the process ends in `exit(status)`,
or the process dies on an invalid memory access. -/
inductive Res (α : Type)
  | ret (v : α)
  | exit (status : Int)
  | fault
  deriving DecidableEq, Repr

/-- The file-scope statics of ipnetns.c and the trace of calls made so far. -/
structure State where
  /-- The field `rtnsh.fd` (ipnetns.c:28). -/
  rtnsh_fd : Int
  /-- The static `have_rtnl_getnsid` (ipnetns.c:30). -/
  have_rtnl_getnsid : Int
  trace : List Event
  deriving DecidableEq, Repr

/-- State at process start: `rtnsh = { .fd = -1 }`, `have_rtnl_getnsid = -1`. -/
def State.init : State := { rtnsh_fd := -1, have_rtnl_getnsid := -1, trace := [] }

/-- Record a call. -/
def State.emit (s : State) (e : Event) : State := { s with trace := s.trace ++ [e] }

/-- A netlink message as seen by `ipnetns_accept_msg`: `n->nlmsg_type` and
the `error` field of the payload read as `struct nlmsgerr`. -/
structure NlMsg where
  nlmsg_type : Int
  error : Int
  deriving DecidableEq, Repr

/-- Results of the calls whose code is outside ipnetns.c. -/
structure Env where
  /-- Size of a pointer in bytes (`sizeof(nic)` for `struct nic_info *nic`). -/
  sizeof_pointer : Nat
  /-- Result of `open("/proc/self/ns/net", O_RDONLY)`. -/
  open_self_ns : Int
  /-- Result of `rtnl_send(&rth, ...)`. -/
  rtnl_send : Int
  /-- Messages `rtnl_listen(&rth, ...)` receives. -/
  rtnl_inbox : List NlMsg
  /-- Result of `rtnl_open(&rtnsh, 0)`. -/
  rtnl_open : Int
  /-- Value of `rtnsh.fd` after `rtnl_open(&rtnsh, 0)`. -/
  rtnl_open_fd : Int
  /-- Result of `shmget(IPC_PRIVATE, size, 0600)`. -/
  shmget : Nat → Int
  /-- Whether `shmat(shmid, NULL, 0)` returns `(void *) -1`. -/
  shmat_fails : Int → Bool
  /-- The string stored at the address an `int` denotes when it is used as a
  `char *`; `none` when that address cannot be read. -/
  string_at : Int → Option CStr
  /-- The strings the `argv` slots point to after `strcat` has written a
  non-empty source over the pointer array; `none` when the process does not
  survive the write. -/
  argv_overwritten : List CStr → CStr → Option (List CStr)
  /-- Result of `netns_switch(name)`, given the calls made before it. -/
  netns_switch : List Event → Int
  /-- How a `cmd_exec` call ends, given the calls made up to and including
  its pre-exec hook. -/
  cmd_exec : List Event → Res Int
  /-- Names the namespace lister behind `netns_foreach` produces. -/
  netns_names : List CStr

/-- The value of `NLMSG_ERROR` in `<linux/netlink.h>`. -/
def NLMSG_ERROR : Int := 2

/-- The value of `EOPNOTSUPP` in `<errno.h>` on Linux. -/
def EOPNOTSUPP : Int := 95

/-- The value of `EINVAL` in `<errno.h>`. -/
def EINVAL : Int := 22

/-! ## NSID probe and control socket (ipnetns.c:27-96) -/

/-- Function `ipnetns_accept_msg` (ipnetns.c:32-43). -/
def ipnetns_accept_msg (n : NlMsg) (s : State) : Int × State :=
  if n.nlmsg_type = NLMSG_ERROR ∧ (n.error = -EOPNOTSUPP ∨ n.error = -EINVAL) then
    (-1, { s with have_rtnl_getnsid := 0 })
  else
    (-1, { s with have_rtnl_getnsid := 1 })

/-- Modelled from the spec: `rtnl_listen` (lib/libnetlink.c is not among the
sources), the listen primitive of the rtnetlink transport.  It hands each
received message to the handler and returns as soon as the handler returns a
negative value; when the input ends it returns -1. -/
def rtnl_listen (handler : NlMsg → State → Int × State) : List NlMsg → State → Int × State
  | [], s => (-1, s)
  | m :: ms, s =>
    match handler m s with
    | (r, s1) => if r < 0 then (r, s1) else rtnl_listen handler ms s1

/-- Function `ipnetns_have_nsid` (ipnetns.c:45-84). -/
def ipnetns_have_nsid (env : Env) (s : State) : Int × State :=
  if s.have_rtnl_getnsid ≥ 0 then
    let s1 := s.emit (.open_ (ascii "/proc/self/ns/net"))
    if env.open_self_ns < 0 then
      let s2 := s1.emit (.stderr "/proc/self/ns/net: %s. Continuing anyway.")
      (0, { s2 with have_rtnl_getnsid := 0 })
    else
      let s2 := s1.emit .addattr32
      let s3 := s2.emit .rtnl_send
      if env.rtnl_send < 0 then
        let s4 := s3.emit (.stderr "rtnl_send(RTM_GETNSID): %s. Continuing anyway.")
        let s5 := { s4 with have_rtnl_getnsid := 0 }
        (0, s5.emit .close)
      else
        let s4 := s3.emit .rtnl_listen
        match rtnl_listen ipnetns_accept_msg env.rtnl_inbox s4 with
        | (_, s5) =>
          let s6 := s5.emit .close
          (s6.have_rtnl_getnsid, s6)
  else
    (s.have_rtnl_getnsid, s)

/-- Function `netns_nsid_socket_init` (ipnetns.c:86-96). -/
def netns_nsid_socket_init (env : Env) (s : State) : Res Unit × State :=
  if s.rtnsh_fd > -1 then (.ret (), s)
  else
    match ipnetns_have_nsid env s with
    | (r, s1) =>
      if r = 0 then (.ret (), s1)
      else
        let s2 := { s1.emit .rtnl_open with rtnsh_fd := env.rtnl_open_fd }
        if env.rtnl_open < 0 then
          (.exit 1, s2.emit (.stderr "Cannot open rtnetlink"))
        else
          (.ret (), s2)

/-! ## Namespace identification (ipnetns.c:98-160) -/

/-- The call `snprintf(buf, size, ...)`: the formatted text cut to `size - 1` bytes. -/
def snprintf (size : Nat) (text : CStr) : CStr := text.take (size - 1)

/-- The call `strlcpy(dst, src, size)`: the new content of `dst`. -/
def strlcpy (dst src : CStr) (size : Nat) : CStr :=
  if size = 0 then dst else (cstr src).take (size - 1)

/-- Outcome of `opendir`: a stream of entry names, or NULL with `errno`
equal to `ENOENT`, or NULL with another `errno`. -/
inductive OpendirResult
  | ok (entries : List CStr)
  | enoent
  | error
  deriving DecidableEq, Repr

/-- The file system as `netns_identify_pid` sees it.  A `struct stat` is
reduced to the pair `(st_dev, st_ino)`. -/
structure FsEnv where
  /-- The macro `NETNS_RUN_DIR` (namespace.h is not among the sources). -/
  NETNS_RUN_DIR : CStr
  /-- Result of `open(path, O_RDONLY)`. -/
  open_ : CStr → Int
  /-- Result of `fstat(fd, &st)`: `none` when it returns a negative value. -/
  fstat : Int → Option (Nat × Nat)
  /-- Result of `opendir(path)`. -/
  opendir : CStr → OpendirResult
  /-- Result of `stat(path, &st)`: `none` when it returns non-zero. -/
  stat : CStr → Option (Nat × Nat)

/-- The buffer `net_path` after ipnetns.c:108. -/
def net_path (pidstr : CStr) : CStr :=
  snprintf PATH_MAX (ascii "/proc/" ++ cstr pidstr ++ ascii "/ns/net")

/-- The buffer `name_path` after ipnetns.c:142-143. -/
def name_path (fs : FsEnv) (d_name : CStr) : CStr :=
  snprintf PATH_MAX (cstr fs.NETNS_RUN_DIR ++ [47] ++ cstr d_name)

/-- The `readdir` loop of `netns_identify_pid` (ipnetns.c:133-152); the
result is the content of `name` when the loop ends. -/
def identify_loop (fs : FsEnv) (netst : Nat × Nat) (len : Int) : List CStr → CStr → CStr
  | [], name => name
  | d_name :: rest, name =>
    if strcmp d_name [46] = 0 then identify_loop fs netst len rest name
    else if strcmp d_name [46, 46] = 0 then identify_loop fs netst len rest name
    else
      match fs.stat (name_path fs d_name) with
      | none => identify_loop fs netst len rest name
      | some st =>
        if st.1 = netst.1 ∧ st.2 = netst.2 then
          identify_loop fs netst len rest (strlcpy name d_name (size_t_of_int len))
        else
          identify_loop fs netst len rest name

/-- Function `netns_identify_pid` (ipnetns.c:98-160): the value returned and the
content of `name` on return. -/
def netns_identify_pid (fs : FsEnv) (pidstr : CStr) (len : Int) : Int × CStr :=
  let name : CStr := []
  let netns := fs.open_ (net_path pidstr)
  if netns < 0 then (-1, name)
  else
    match fs.fstat netns with
    | none => (-1, name)
    | some netst =>
      match fs.opendir fs.NETNS_RUN_DIR with
      | .enoent => (0, name)
      | .error => (-1, name)
      | .ok entries => (0, identify_loop fs netst len entries name)

/-- A registry entry matches the identity `netst`: it is not "." or "..", and
`stat` of its path succeeds with the same `(st_dev, st_ino)`. -/
def IsMatch (fs : FsEnv) (netst : Nat × Nat) (d_name : CStr) : Prop :=
  cstr d_name ≠ [46] ∧ cstr d_name ≠ [46, 46] ∧ fs.stat (name_path fs d_name) = some netst

instance (fs : FsEnv) (netst : Nat × Nat) (d_name : CStr) : Decidable (IsMatch fs netst d_name) := by
  unfold IsMatch
  infer_instance

/-! ## Switch and exec (ipnetns.c:162-245) -/

/-- Function `do_switch` (ipnetns.c:162-172). -/
def do_switch (env : Env) (arg : Option CStr) (s : State) : Int × State :=
  let s1 := s.emit .vrf_reset
  let s2 := s1.emit (.netns_switch arg)
  (env.netns_switch s1.trace, s2)

/-- Call of a `setup` function pointer. -/
def SetupFn.call (env : Env) : SetupFn → Option CStr → State → Int × State
  | .do_switch => Ipnetns.do_switch env

/-- Modelled from the spec: `cmd_exec` (lib/exec.c is not among the sources),
the process-spawn primitive.  It takes the command, its argv, a flag, a
pre-exec callback and the context passed to that callback; the callback runs
before the command.  How the call ends (a status returned to the caller, or
the end of the process) is the environment's. -/
def cmd_exec (env : Env) (cmd : Option CStr) (argv : List CStr) (do_fork : Bool)
    (setup : SetupFn) (arg : Option CStr) (s : State) : Res Int × State :=
  let s1 := s.emit (.cmd_exec cmd argv do_fork setup arg)
  match setup.call env arg s1 with
  | (_, s2) => (env.cmd_exec s2.trace, s2)

/-- Function `on_netns_exec` (ipnetns.c:174-181). -/
def on_netns_exec (env : Env) (nsname : CStr) (argv : List CStr) (s : State) :
    Res Int × State :=
  let s1 := s.emit (.stdout ([10] ++ ascii "netns: " ++ cstr nsname ++ [10]))
  match cmd_exec env argv[0]? argv true .do_switch (some nsname) s1 with
  | (.ret _, s2) => (.ret 0, s2)
  | (.exit c, s2) => (.exit c, s2)
  | (.fault, s2) => (.fault, s2)

/-- The loop of `netns_foreach` over the names still to visit. -/
def netns_foreach_loop (func : CStr → List CStr → State → Res Int × State)
    (arg : List CStr) : List CStr → State → Res Int × State
  | [], s => (.ret 0, s)
  | nsname :: rest, s =>
    match func nsname arg s with
    | (.ret r, s1) => if r ≠ 0 then (.ret 0, s1) else netns_foreach_loop func arg rest s1
    | (.exit c, s1) => (.exit c, s1)
    | (.fault, s1) => (.fault, s1)

/-- Modelled from the spec: `netns_foreach` (lib/namespace.c is not among the
sources), the namespace-directory walker.  It calls the callback on each
known namespace name in the order the lister produces them, stops early only
when the callback returns non-zero, and reports the fixed success value 0
once the loop is over. -/
def netns_foreach (env : Env) (func : CStr → List CStr → State → Res Int × State)
    (arg : List CStr) (s : State) : Res Int × State :=
  netns_foreach_loop func arg env.netns_names (s.emit .netns_foreach)

/-- Function `netns_exec` (ipnetns.c:183-205); `do_all` and `batch_mode` are the
globals of the tool. -/
def netns_exec (env : Env) (do_all batch_mode : Int) (argc : Int) (argv : List CStr)
    (s : State) : Res Int × State :=
  if argc < 1 ∧ do_all = 0 then
    (.ret (-1), s.emit (.stderr "No netns name specified"))
  else if (argc < 2 ∧ do_all = 0) ∨ (argc < 1 ∧ do_all ≠ 0) then
    (.ret (-1), s.emit (.stderr "No command specified"))
  else if do_all ≠ 0 then
    netns_foreach env (on_netns_exec env) argv s
  else
    match cmd_exec env argv[1]? (argv.drop 1) (decide (batch_mode ≠ 0)) .do_switch argv[0]? s with
    | (.ret r, s1) => (.ret (int_neg r), s1)
    | (.exit c, s1) => (.exit c, s1)
    | (.fault, s1) => (.fault, s1)

/-- The call `strcat(argv, shmid)` (ipnetns.c:231): the pointer array `argv`
is the destination and the segment id, used as an address, the source.  The
result is `argv` as the code after the call finds it, `none` when the process
is killed.  Reading an unreadable source address kills the process; an empty
source writes the terminator over the zero byte that ends the destination
and changes nothing; a non-empty source overwrites the slots. -/
def strcat_argv (env : Env) (argv : List CStr) (shmid : Int) : Option (List CStr) :=
  match env.string_at shmid with
  | none => none
  | some src => if cstr src = [] then some argv else env.argv_overwritten argv (cstr src)

/-- Lines 215-233 of `do_netns`: control socket, shared-memory segment,
`strcat` and `make_iflist`.  The value returned is `argv` as line 235 finds
it. -/
def do_netns_setup (env : Env) (argv : List CStr) (s : State) : Res (List CStr) × State :=
  match netns_nsid_socket_init env s with
  | (.exit c, s1) => (.exit c, s1)
  | (.fault, s1) => (.fault, s1)
  | (.ret (), s1) =>
    let size := env.sizeof_pointer + 1
    let shmid := env.shmget size
    let s2 := s1.emit (.shmget size)
    if shmid = -1 then (.exit (-1), s2.emit (.perror " shmget "))
    else
      let s3 := s2.emit (.shmat shmid)
      if env.shmat_fails shmid then (.exit (-1), s3.emit (.perror " shmat "))
      else
        let s4 := s3.emit (.strcat shmid)
        match strcat_argv env argv shmid with
        | none => (.fault, s4)
        | some argv1 => (.ret argv1, s4.emit .make_iflist)

/-- Lines 235-242 of `do_netns`: the name check and the call of
`netns_exec`. -/
def do_netns_dispatch (env : Env) (do_all batch_mode : Int) (argc : Int) (argv : List CStr)
    (s : State) : Res Int × State :=
  if do_all = 0 ∧ argc > 1 then
    match argv[1]? with
    | none => (.fault, s)
    | some name =>
      if invalid_name name ≠ 0 then
        (.exit (-1), s.emit (.stderr "Invalid netns name"))
      else
        netns_exec env do_all batch_mode (argc - 1) (argv.drop 1) s
  else
    netns_exec env do_all batch_mode (argc - 1) (argv.drop 1) s

/-- Function `do_netns` (ipnetns.c:213-245). -/
def do_netns (env : Env) (do_all batch_mode : Int) (argc : Int) (argv : List CStr)
    (s : State) : Res Int × State :=
  match do_netns_setup env argv s with
  | (.exit c, s1) => (.exit c, s1)
  | (.fault, s1) => (.fault, s1)
  | (.ret argv1, s1) => do_netns_dispatch env do_all batch_mode argc argv1 s1

/-- Modelled from the spec: the caller of `do_netns` (`do_cmd` in ip.c, not
among the sources) negates the value it gets once; the result is the final
status of the tool. -/
def do_cmd_status (r : Int) : Int := int_neg r

/-- Calls that switch namespace or start a command. -/
def Event.isExecStep : Event → Bool
  | .cmd_exec .. => true
  | .netns_foreach => true
  | .netns_switch _ => true
  | _ => false

/-- Calls of `cmd_exec`. -/
def Event.isCmdExec : Event → Bool
  | .cmd_exec .. => true
  | _ => false

/-- Calls of `netns_foreach`. -/
def Event.isForeach : Event → Bool
  | .netns_foreach => true
  | _ => false

/-- Calls of the NSID probe: the open of the own namespace file and the
netlink round trip. -/
def Event.isProbe : Event → Bool
  | .open_ _ => true
  | .rtnl_send => true
  | .rtnl_listen => true
  | _ => false

/-! ## Concrete inputs -/

/-- A 64-bit environment: the netlink and shared-memory calls succeed, the
probe request is answered with the error `-EOPNOTSUPP`, the segment id is 7,
which is not a readable address, every command ends with status 1, and the
namespace lister produces "red" and "blue". -/
def env_lp64 : Env :=
  { sizeof_pointer := 8
    open_self_ns := 3
    rtnl_send := 0
    rtnl_inbox := [{ nlmsg_type := 2, error := -95 }]
    rtnl_open := 0
    rtnl_open_fd := 4
    shmget := fun _ => 7
    shmat_fails := fun _ => false
    string_at := fun _ => none
    argv_overwritten := fun _ _ => none
    netns_switch := fun _ => 0
    cmd_exec := fun _ => .ret 1
    netns_names := [ascii "red", ascii "blue"] }

/-- The environment `env_lp64` with 4-byte pointers. -/
def env_ilp32 : Env := { env_lp64 with sizeof_pointer := 4 }

/-- The environment `env_lp64` with a segment id that, used as an address,
points at a NUL byte of the program image: the source of the `strcat` call
is the empty string. -/
def env_mapped : Env :=
  { env_lp64 with
    shmget := fun _ => 4194311
    string_at := fun addr => if addr = 4194311 then some [0] else none }

/-- A file system with the registry entries "red" and "blue", in which
process 1 is in the namespace "blue" names. -/
def fs_two : FsEnv :=
  { NETNS_RUN_DIR := ascii "/var/run/netns"
    open_ := fun path => if path = ascii "/proc/1/ns/net" then 3 else -1
    fstat := fun fd => if fd = 3 then some (4, 4026532008) else none
    opendir := fun path =>
      if path = ascii "/var/run/netns" then
        .ok [ascii ".", ascii "..", ascii "red", ascii "blue"]
      else .enoent
    stat := fun path =>
      if path = ascii "/var/run/netns/red" then some (4, 4026531992)
      else if path = ascii "/var/run/netns/blue" then some (4, 4026532008)
      else none }

/-- A file system without a registry directory, in which process 1 exists and
no other process does. -/
def fs_no_registry : FsEnv :=
  { NETNS_RUN_DIR := ascii "/var/run/netns"
    open_ := fun path => if path = ascii "/proc/1/ns/net" then 3 else -1
    fstat := fun fd => if fd = 3 then some (4, 4026532008) else none
    opendir := fun _ => .enoent
    stat := fun _ => none }

end Ipnetns

namespace Ipnetns

/-! ## Facts about the string functions -/

theorem strlen_eq_length_cstr (a : CStr) : strlen a = (cstr a).length := by
  induction a with
  | nil => rfl
  | cons c cs ih =>
    by_cases h : c = 0
    · simp [strlen, cstr, h]
    · simp [strlen, cstr, h, ih]

theorem strchr_isSome_iff (a : CStr) (c : Nat) (hc : c ≠ 0) :
    (strchr a c).isSome = true ↔ c ∈ cstr a := by
  induction a with
  | nil => simp [strchr, cstr, hc]
  | cons x xs ih =>
    by_cases hx : x = c
    · subst hx
      simp [strchr, cstr, hc]
    · by_cases h0 : x = 0
      · subst h0
        simp [strchr, cstr, hx]
      · have hcx : ¬ c = x := fun h => hx h.symm
        simp [strchr, cstr, hx, h0, hcx, ih]

theorem strcmp_eq_zero_iff (a b : CStr) : strcmp a b = 0 ↔ cstr a = cstr b := by
  induction a generalizing b with
  | nil =>
    cases b with
    | nil => simp [strcmp, cstr]
    | cons y ys =>
      by_cases hy : y = 0
      · simp [strcmp, cstr, hy]
      · simp [strcmp, cstr, hy]
  | cons x xs ih =>
    cases b with
    | nil =>
      by_cases hx : x = 0
      · simp [strcmp, cstr, hx]
      · simp [strcmp, cstr, hx]
    | cons y ys =>
      by_cases hxy : x = y
      · subst hxy
        by_cases hx : x = 0
        · simp [strcmp, cstr, hx]
        · simp [strcmp, cstr, hx, ih]
      · by_cases hx : x = 0
        · by_cases hy : y = 0
          · exact absurd (hx.trans hy.symm) hxy
          · subst hx
            have : ¬ (((0 : Nat) : Int) - (y : Int) = 0) := by omega
            simp [strcmp, cstr, hxy, hy, this]
        · by_cases hy : y = 0
          · have : ¬ ((x : Int) - (y : Int) = 0) := by omega
            simp [strcmp, cstr, hxy, hx, hy, this]
          · have : ¬ ((x : Int) - (y : Int) = 0) := by omega
            simp [strcmp, cstr, hxy, hx, hy, this]

theorem headD_eq_zero_iff (a : CStr) : a.headD 0 = 0 ↔ cstr a = [] := by
  cases a with
  | nil => simp [cstr]
  | cons x xs =>
    by_cases hx : x = 0
    · simp [cstr, hx]
    · simp [cstr, hx]

theorem cstr_idem (a : CStr) : cstr (cstr a) = cstr a := by
  induction a with
  | nil => rfl
  | cons x xs ih =>
    by_cases hx : x = 0
    · simp [cstr, hx]
    · simp [cstr, hx, ih]

theorem cstr_of_no_nul (a : CStr) (h : ∀ b ∈ a, b ≠ 0) : cstr a = a := by
  induction a with
  | nil => rfl
  | cons x xs ih =>
    have hx : x ≠ 0 := h x (List.mem_cons_self _ _)
    simp [cstr, hx, ih (fun b hb => h b (List.mem_cons_of_mem _ hb))]

/-! ## Claims -/

/-- C3: for every name (the string stored at the pointer), `invalid_name`
returns non-zero if and only if the name is empty, or longer than `NAME_MAX`
(255) bytes, or contains the byte '/' (47), or is "." or ".."; for every
other name it returns 0. -/
theorem invalid_name_iff (name : CStr) :
    (invalid_name name ≠ 0 ↔
      (cstr name = [] ∨ 255 < (cstr name).length ∨ 47 ∈ cstr name ∨
        cstr name = [46] ∨ cstr name = [46, 46])) ∧
    (invalid_name name = 0 ∨ invalid_name name = 1) := by
  have h1 := headD_eq_zero_iff name
  have h2 := strlen_eq_length_cstr name
  have h3 := strchr_isSome_iff name 47 (by decide)
  have h4 := strcmp_eq_zero_iff name [46]
  have h5 := strcmp_eq_zero_iff name [46, 46]
  have e4 : cstr [46] = [46] := by decide
  have e5 : cstr [46, 46] = [46, 46] := by decide
  rw [e4] at h4
  rw [e5] at h5
  unfold invalid_name cbool NAME_MAX
  constructor
  · rw [← h1, ← h2, ← h3, ← h4, ← h5]
    split <;> rename_i h
    · simp only [Bool.or_eq_true, beq_iff_eq, decide_eq_true_eq] at h
      simp only [ne_eq, one_ne_zero, not_false_eq_true, true_iff]
      tauto
    · simp only [Bool.or_eq_true, beq_iff_eq, decide_eq_true_eq] at h
      simp only [ne_eq, not_true_eq_false, false_iff]
      tauto
  · split <;> simp

/-- Events of one single-target switch-and-exec (ipnetns.c:204): the
`cmd_exec` call and the calls of its pre-exec hook. -/
def single_events (batch_mode : Int) (argv : List CStr) : List Event :=
  [.cmd_exec argv[1]? (argv.drop 1) (decide (batch_mode ≠ 0)) .do_switch argv[0]?,
   .vrf_reset, .netns_switch argv[0]?]

/-- Events of one iteration of the broadcast loop (ipnetns.c:178-179): the
announcement, the `cmd_exec` call and the calls of its pre-exec hook. -/
def broadcast_events (argv : List CStr) (nsname : CStr) : List Event :=
  [.stdout ([10] ++ ascii "netns: " ++ cstr nsname ++ [10]),
   .cmd_exec argv[0]? argv true .do_switch (some nsname),
   .vrf_reset, .netns_switch (some nsname)]

theorem int_neg_of_ne_min (st : Int) (h : -2 ^ 31 < st ∧ st < 2 ^ 31) : int_neg st = -st := by
  unfold int_neg int_wrap
  omega

theorem int_neg_int_neg (st : Int) (h : -2 ^ 31 ≤ st ∧ st < 2 ^ 31) :
    int_neg (int_neg st) = st := by
  unfold int_neg int_wrap
  omega

theorem cmd_exec_eq (env : Env) (cmd : Option CStr) (argv : List CStr) (do_fork : Bool)
    (arg : Option CStr) (s : State) :
    cmd_exec env cmd argv do_fork .do_switch arg s =
      (env.cmd_exec (s.trace ++ [.cmd_exec cmd argv do_fork .do_switch arg, .vrf_reset,
          .netns_switch arg]),
        { s with trace := s.trace ++ [.cmd_exec cmd argv do_fork .do_switch arg, .vrf_reset,
          .netns_switch arg] }) := by
  simp [cmd_exec, SetupFn.call, do_switch, State.emit]

theorem netns_exec_single_eq (env : Env) (batch_mode argc : Int) (argv : List CStr)
    (s : State) (hargc : 2 ≤ argc) :
    netns_exec env 0 batch_mode argc argv s =
      match env.cmd_exec (s.trace ++ single_events batch_mode argv) with
      | .ret r => (.ret (int_neg r), { s with trace := s.trace ++ single_events batch_mode argv })
      | .exit c => (.exit c, { s with trace := s.trace ++ single_events batch_mode argv })
      | .fault => (.fault, { s with trace := s.trace ++ single_events batch_mode argv }) := by
  have h1 : ¬ argc < 1 := by omega
  have h2 : ¬ argc < 2 := by omega
  unfold netns_exec
  rw [cmd_exec_eq]
  simp only [h1, h2, single_events, false_and, or_self, if_false, ne_eq, not_true_eq_false,
    if_false]
  generalize env.cmd_exec _ = r
  cases r <;> rfl

/-- C1: for every single-target request (`do_all` unset, `argc >= 2`) and
every `int` status `st` that `cmd_exec` returns, `netns_exec` makes exactly
one `cmd_exec` call, with command `argv[1]`, argument vector `argv + 1`,
pre-exec hook `do_switch` and hook argument `argv[0]`, and returns the C
negation of `st`, which is `-st` unless `st` is `INT_MIN`; the caller's
single negation gives back `st`, the command's status unchanged. -/
theorem netns_exec_single_target (env : Env) (batch_mode argc : Int) (argv : List CStr)
    (s : State) (st : Int) (hargc : 2 ≤ argc) (hst : -2 ^ 31 ≤ st ∧ st < 2 ^ 31)
    (hret : env.cmd_exec (s.trace ++ single_events batch_mode argv) = .ret st) :
    netns_exec env 0 batch_mode argc argv s =
      (.ret (int_neg st), { s with trace := s.trace ++ single_events batch_mode argv }) ∧
    (single_events batch_mode argv).filter Event.isCmdExec =
      [.cmd_exec argv[1]? (argv.drop 1) (decide (batch_mode ≠ 0)) .do_switch argv[0]?] ∧
    (st ≠ -2 ^ 31 → int_neg st = -st) ∧
    do_cmd_status (int_neg st) = st := by
  have h1 : ¬ argc < 1 := by omega
  have h2 : ¬ argc < 2 := by omega
  refine ⟨?_, by simp [single_events, Event.isCmdExec], ?_, int_neg_int_neg st hst⟩
  · rw [netns_exec_single_eq env batch_mode argc argv s hargc, hret]
  · intro hne
    apply int_neg_of_ne_min
    omega

theorem on_netns_exec_eq (env : Env) (nsname : CStr) (argv : List CStr) (s : State) :
    on_netns_exec env nsname argv s =
      match env.cmd_exec (s.trace ++ broadcast_events argv nsname) with
      | .ret _ => (.ret 0, { s with trace := s.trace ++ broadcast_events argv nsname })
      | .exit c => (.exit c, { s with trace := s.trace ++ broadcast_events argv nsname })
      | .fault => (.fault, { s with trace := s.trace ++ broadcast_events argv nsname }) := by
  simp only [on_netns_exec, cmd_exec_eq, State.emit, broadcast_events, List.append_assoc,
    List.singleton_append, List.cons_append, List.nil_append]
  generalize env.cmd_exec _ = r
  cases r <;> rfl

theorem foreach_loop_no_foreach (env : Env) (argv : List CStr) (names : List CStr) (s : State) :
    ∃ rest, (netns_foreach_loop (on_netns_exec env) argv names s).2.trace = s.trace ++ rest ∧
      ∀ e ∈ rest, e.isForeach = false := by
  induction names generalizing s with
  | nil => exact ⟨[], by simp [netns_foreach_loop]⟩
  | cons n ns ih =>
    unfold netns_foreach_loop
    rw [on_netns_exec_eq]
    have hb : ∀ e ∈ broadcast_events argv n, e.isForeach = false := by
      intro e he
      simp only [broadcast_events, List.mem_cons, List.mem_singleton, List.not_mem_nil,
        or_false] at he
      rcases he with h | h | h | h <;> subst h <;> rfl
    cases hr : env.cmd_exec (s.trace ++ broadcast_events argv n) with
    | ret v =>
      obtain ⟨rest, h1, h2⟩ := ih { s with trace := s.trace ++ broadcast_events argv n }
      refine ⟨broadcast_events argv n ++ rest, ?_, ?_⟩
      · simp only [ne_eq, not_true_eq_false, if_false, h1, List.append_assoc]
      · intro e he
        rcases List.mem_append.mp he with h | h
        · exact hb e h
        · exact h2 e h
    | exit c => exact ⟨broadcast_events argv n, rfl, hb⟩
    | fault => exact ⟨broadcast_events argv n, rfl, hb⟩

/-- C4: for every `argc`, `argv`, `do_all` and `batch_mode`, when the name is
missing in non-broadcast mode (`do_all` unset, `argc < 1`) or the command is
missing (`do_all` unset and `argc < 2`, or `do_all` set and `argc < 1`),
`netns_exec` returns -1 and makes no call but the diagnostic on stderr; in
every other case it makes, in non-broadcast mode, exactly the one `cmd_exec`
call with its hook and no `netns_foreach` call, and in broadcast mode
exactly one `netns_foreach` call, made first. -/
theorem netns_exec_usage_check (env : Env) (do_all batch_mode argc : Int) (argv : List CStr)
    (s : State) :
    if (do_all = 0 ∧ argc < 1) ∨ (do_all = 0 ∧ argc < 2) ∨ (do_all ≠ 0 ∧ argc < 1) then
      ∃ msg, netns_exec env do_all batch_mode argc argv s = (.ret (-1), s.emit (.stderr msg))
    else if do_all = 0 then
      (netns_exec env do_all batch_mode argc argv s).2.trace =
          s.trace ++ single_events batch_mode argv ∧
        (single_events batch_mode argv).filter Event.isCmdExec =
          [.cmd_exec argv[1]? (argv.drop 1) (decide (batch_mode ≠ 0)) .do_switch argv[0]?] ∧
        (single_events batch_mode argv).filter Event.isForeach = []
    else
      ∃ rest, (netns_exec env do_all batch_mode argc argv s).2.trace =
          s.trace ++ Event.netns_foreach :: rest ∧
        ∀ e ∈ rest, e.isForeach = false := by
  by_cases hall : do_all = 0
  · subst hall
    by_cases h2 : argc < 2
    · have hc : (0 = (0 : Int) ∧ argc < 1) ∨ (0 = (0 : Int) ∧ argc < 2) ∨
          ((0 : Int) ≠ 0 ∧ argc < 1) := Or.inr (Or.inl ⟨rfl, h2⟩)
      rw [if_pos hc]
      by_cases h1 : argc < 1
      · exact ⟨"No netns name specified", by simp [netns_exec, h1]⟩
      · exact ⟨"No command specified", by simp [netns_exec, h1, h2]⟩
    · have hc : ¬ ((0 = (0 : Int) ∧ argc < 1) ∨ (0 = (0 : Int) ∧ argc < 2) ∨
          ((0 : Int) ≠ 0 ∧ argc < 1)) := by
        rintro (⟨_, h⟩ | ⟨_, h⟩ | ⟨h, _⟩)
        · omega
        · omega
        · exact h rfl
      rw [if_neg hc, if_pos rfl]
      refine ⟨?_, by simp [single_events, Event.isCmdExec], by simp [single_events, Event.isForeach]⟩
      rw [netns_exec_single_eq env batch_mode argc argv s (by omega)]
      generalize env.cmd_exec _ = r
      cases r <;> rfl
  · by_cases h1 : argc < 1
    · have hc : (do_all = 0 ∧ argc < 1) ∨ (do_all = 0 ∧ argc < 2) ∨ (do_all ≠ 0 ∧ argc < 1) :=
        Or.inr (Or.inr ⟨hall, h1⟩)
      rw [if_pos hc]
      exact ⟨"No command specified", by simp [netns_exec, h1, hall]⟩
    · have hc : ¬ ((do_all = 0 ∧ argc < 1) ∨ (do_all = 0 ∧ argc < 2) ∨
          (do_all ≠ 0 ∧ argc < 1)) := by
        rintro (⟨h, _⟩ | ⟨h, _⟩ | ⟨_, h⟩)
        · exact hall h
        · exact hall h
        · exact h1 h
      rw [if_neg hc, if_neg hall]
      obtain ⟨rest, hr, hn⟩ :=
        foreach_loop_no_foreach env argv env.netns_names (s.emit .netns_foreach)
      refine ⟨rest, ?_, hn⟩
      simp only [netns_exec, h1, hall, false_and, and_false, or_self, if_false, ne_eq,
        not_false_eq_true, if_true, netns_foreach]
      rw [hr]
      simp [State.emit]

theorem foreach_loop_all_return (env : Env) (argv : List CStr)
    (hret : ∀ tr, ∃ st, env.cmd_exec tr = .ret st) (names : List CStr) (s : State) :
    netns_foreach_loop (on_netns_exec env) argv names s =
      (.ret 0, { s with trace := s.trace ++ names.flatMap (broadcast_events argv) }) := by
  induction names generalizing s with
  | nil => simp [netns_foreach_loop]
  | cons n ns ih =>
    unfold netns_foreach_loop
    rw [on_netns_exec_eq]
    obtain ⟨st, hst⟩ := hret (s.trace ++ broadcast_events argv n)
    rw [hst]
    simp only [ne_eq, not_true_eq_false, if_false]
    rw [ih]
    simp [List.flatMap_cons]

theorem filter_cmd_exec_flatMap (argv : List CStr) (names : List CStr) :
    (names.flatMap (broadcast_events argv)).filter Event.isCmdExec =
      names.map (fun n => Event.cmd_exec argv[0]? argv true .do_switch (some n)) := by
  induction names with
  | nil => rfl
  | cons n ns ih =>
    rw [List.flatMap_cons, List.filter_append, ih]
    simp [broadcast_events, Event.isCmdExec]

/-- C5: in broadcast mode (`do_all` set, a command present), with
`netns_foreach` calling its callback on each listed name in order and
stopping early only on a non-zero return, and whatever status each
`cmd_exec` call returns: the calls `netns_exec` makes are `netns_foreach`
followed, for each listed name in list order, by the announcement and one
`cmd_exec` call with hook `do_switch` and that name as the hook argument;
the `cmd_exec` calls are exactly one per listed name, in list order; and the
result is the fixed value 0. -/
theorem netns_exec_broadcast (env : Env) (do_all batch_mode argc : Int) (argv : List CStr)
    (s : State) (hall : do_all ≠ 0) (hargc : 1 ≤ argc)
    (hret : ∀ tr, ∃ st, env.cmd_exec tr = .ret st) :
    netns_exec env do_all batch_mode argc argv s =
      (.ret 0, { s with trace := s.trace ++
        Event.netns_foreach :: env.netns_names.flatMap (broadcast_events argv) }) ∧
    (Event.netns_foreach :: env.netns_names.flatMap (broadcast_events argv)).filter
        Event.isCmdExec =
      env.netns_names.map (fun n => Event.cmd_exec argv[0]? argv true .do_switch (some n)) := by
  have h1 : ¬ argc < 1 := by omega
  constructor
  · simp only [netns_exec, h1, hall, false_and, and_false, or_self, if_false, ne_eq,
      not_false_eq_true, if_true, netns_foreach]
    rw [foreach_loop_all_return env argv hret]
    simp [State.emit]
  · rw [List.filter_cons]
    simp only [Event.isCmdExec, Bool.false_eq_true, if_false]
    exact filter_cmd_exec_flatMap argv env.netns_names

theorem rtnl_listen_accept_trace (inbox : List NlMsg) (s : State) :
    (rtnl_listen ipnetns_accept_msg inbox s).2.trace = s.trace := by
  cases inbox with
  | nil => rfl
  | cons m ms =>
    by_cases h : m.nlmsg_type = NLMSG_ERROR ∧ (m.error = -EOPNOTSUPP ∨ m.error = -EINVAL)
    · simp [rtnl_listen, ipnetns_accept_msg, h]
    · simp [rtnl_listen, ipnetns_accept_msg, h]

theorem have_nsid_trace (env : Env) (s : State) :
    ∃ evs, (ipnetns_have_nsid env s).2.trace = s.trace ++ evs ∧
      ∀ e ∈ evs, e.isExecStep = false := by
  unfold ipnetns_have_nsid
  by_cases h0 : s.have_rtnl_getnsid ≥ 0
  · rw [if_pos h0]
    by_cases h1 : env.open_self_ns < 0
    · refine ⟨[.open_ (ascii "/proc/self/ns/net"),
        .stderr "/proc/self/ns/net: %s. Continuing anyway."], ?_, ?_⟩
      · simp [h1, State.emit]
      · intro e he
        simp only [List.mem_cons, List.mem_singleton, List.not_mem_nil, or_false] at he
        rcases he with h | h <;> subst h <;> rfl
    · by_cases h2 : env.rtnl_send < 0
      · refine ⟨[.open_ (ascii "/proc/self/ns/net"), .addattr32, .rtnl_send,
          .stderr "rtnl_send(RTM_GETNSID): %s. Continuing anyway.", .close], ?_, ?_⟩
        · simp [h1, h2, State.emit]
        · intro e he
          simp only [List.mem_cons, List.mem_singleton, List.not_mem_nil, or_false] at he
          rcases he with h | h | h | h | h <;> subst h <;> rfl
      · refine ⟨[.open_ (ascii "/proc/self/ns/net"), .addattr32, .rtnl_send, .rtnl_listen,
          .close], ?_, ?_⟩
        · simp [h1, h2, State.emit, rtnl_listen_accept_trace]
        · intro e he
          simp only [List.mem_cons, List.mem_singleton, List.not_mem_nil, or_false] at he
          rcases he with h | h | h | h | h <;> subst h <;> rfl
  · rw [if_neg h0]
    exact ⟨[], by simp⟩

theorem socket_init_trace (env : Env) (s : State) :
    ∃ evs, (netns_nsid_socket_init env s).2.trace = s.trace ++ evs ∧
      (∀ e ∈ evs, e.isExecStep = false) ∧
      ((netns_nsid_socket_init env s).1 = .ret () ∨
        (netns_nsid_socket_init env s).1 = .exit 1) := by
  unfold netns_nsid_socket_init
  by_cases hfd : s.rtnsh_fd > -1
  · rw [if_pos hfd]
    exact ⟨[], by simp⟩
  · rw [if_neg hfd]
    obtain ⟨evs, ht, hn⟩ := have_nsid_trace env s
    by_cases hr : (ipnetns_have_nsid env s).1 = 0
    · refine ⟨evs, ?_, hn, ?_⟩
      · simp [hr, ht]
      · simp [hr]
    · by_cases ho : env.rtnl_open < 0
      · refine ⟨evs ++ [.rtnl_open, .stderr "Cannot open rtnetlink"], ?_, ?_, ?_⟩
        · simp [hr, ho, ht, State.emit]
        · intro e he
          rcases List.mem_append.mp he with h | h
          · exact hn e h
          · simp only [List.mem_cons, List.mem_singleton, List.not_mem_nil, or_false] at h
            rcases h with h | h <;> subst h <;> rfl
        · simp [hr, ho]
      · refine ⟨evs ++ [.rtnl_open], ?_, ?_, ?_⟩
        · simp [hr, ho, ht, State.emit]
        · intro e he
          rcases List.mem_append.mp he with h | h
          · exact hn e h
          · simp only [List.mem_singleton] at h
            subst h
            rfl
        · simp [hr, ho]

theorem setup_trace (env : Env) (argv : List CStr) (s : State) :
    ∃ evs, (do_netns_setup env argv s).2.trace = s.trace ++ evs ∧
      ∀ e ∈ evs, e.isExecStep = false := by
  obtain ⟨evs, ht, hn, hr⟩ := socket_init_trace env s
  unfold do_netns_setup
  rcases hi : netns_nsid_socket_init env s with ⟨r, s1⟩
  rw [hi] at ht hr
  simp only at ht hr
  rcases hr with hr | hr
  · subst hr
    simp only
    by_cases hg : env.shmget (env.sizeof_pointer + 1) = -1
    · rw [if_pos hg]
      refine ⟨evs ++ [.shmget (env.sizeof_pointer + 1), .perror " shmget "], ?_, ?_⟩
      · simp [State.emit, ht]
      · intro e he
        rcases List.mem_append.mp he with h | h
        · exact hn e h
        · simp only [List.mem_cons, List.mem_singleton, List.not_mem_nil, or_false] at h
          rcases h with h | h <;> subst h <;> rfl
    · rw [if_neg hg]
      by_cases ha : env.shmat_fails (env.shmget (env.sizeof_pointer + 1)) = true
      · rw [if_pos ha]
        refine ⟨evs ++ [.shmget (env.sizeof_pointer + 1),
            .shmat (env.shmget (env.sizeof_pointer + 1)), .perror " shmat "], ?_, ?_⟩
        · simp [State.emit, ht]
        · intro e he
          rcases List.mem_append.mp he with h | h
          · exact hn e h
          · simp only [List.mem_cons, List.mem_singleton, List.not_mem_nil, or_false] at h
            rcases h with h | h | h <;> subst h <;> rfl
      · rw [if_neg ha]
        rcases Option.eq_none_or_eq_some
            (strcat_argv env argv (env.shmget (env.sizeof_pointer + 1))) with hs | ⟨argv1, hs⟩
        · refine ⟨evs ++ [.shmget (env.sizeof_pointer + 1),
              .shmat (env.shmget (env.sizeof_pointer + 1)),
              .strcat (env.shmget (env.sizeof_pointer + 1))], ?_, ?_⟩
          · simp [State.emit, ht, hs]
          · intro e he
            rcases List.mem_append.mp he with h | h
            · exact hn e h
            · simp only [List.mem_cons, List.mem_singleton, List.not_mem_nil, or_false] at h
              rcases h with h | h | h <;> subst h <;> rfl
        · refine ⟨evs ++ [.shmget (env.sizeof_pointer + 1),
              .shmat (env.shmget (env.sizeof_pointer + 1)),
              .strcat (env.shmget (env.sizeof_pointer + 1)), .make_iflist], ?_, ?_⟩
          · simp [State.emit, ht, hs]
          · intro e he
            rcases List.mem_append.mp he with h | h
            · exact hn e h
            · simp only [List.mem_cons, List.mem_singleton, List.not_mem_nil, or_false] at h
              rcases h with h | h | h | h <;> subst h <;> rfl
  · subst hr
    exact ⟨evs, ht, hn⟩

/-- C2 (amended): for every single-target `do_netns` request (`do_all` unset,
`argc > 1`) whose name `argv[1]` is syntactically invalid when the name check
of line 235 reads it, the check ends the process with `exit(-1)`, a failure
status, and no `cmd_exec`, `netns_foreach` or `netns_switch` call has been
made: the calls made are those of lines 215-233, none of which is one of the
three, and the diagnostic. -/
theorem do_netns_invalid_name_single (env : Env) (batch_mode argc : Int) (argv : List CStr)
    (s : State) (argv1 : List CStr) (s1 : State) (name : CStr) (hargc : 1 < argc)
    (hsetup : do_netns_setup env argv s = (.ret argv1, s1))
    (hname : argv1[1]? = some name) (hinv : invalid_name name ≠ 0) :
    do_netns env 0 batch_mode argc argv s =
      (.exit (-1), s1.emit (.stderr "Invalid netns name")) ∧
    ∃ evs, (do_netns env 0 batch_mode argc argv s).2.trace = s.trace ++ evs ∧
      ∀ e ∈ evs, e.isExecStep = false := by
  have heq : do_netns env 0 batch_mode argc argv s =
      (.exit (-1), s1.emit (.stderr "Invalid netns name")) := by
    have hgt : argc > 1 := hargc
    simp only [do_netns, hsetup, do_netns_dispatch, hgt, and_self, and_true, true_and, if_true,
      hname, hinv, ne_eq, not_false_eq_true]
  refine ⟨heq, ?_⟩
  obtain ⟨evs, ht, hn⟩ := setup_trace env argv s
  rw [hsetup] at ht
  simp only at ht
  refine ⟨evs ++ [.stderr "Invalid netns name"], ?_, ?_⟩
  · rw [heq]
    simp [State.emit, ht]
  · intro e he
    rcases List.mem_append.mp he with h | h
    · exact hn e h
    · simp only [List.mem_singleton] at h
      subst h
      rfl

theorem identify_loop_cons (fs : FsEnv) (netst : Nat × Nat) (len : Int) (d : CStr)
    (rest : List CStr) (name : CStr) :
    identify_loop fs netst len (d :: rest) name =
      if IsMatch fs netst d then
        identify_loop fs netst len rest (strlcpy name d (size_t_of_int len))
      else identify_loop fs netst len rest name := by
  have h1 := strcmp_eq_zero_iff d [46]
  have h2 := strcmp_eq_zero_iff d [46, 46]
  have e1 : cstr [46] = [46] := by decide
  have e2 : cstr [46, 46] = [46, 46] := by decide
  rw [e1] at h1
  rw [e2] at h2
  simp only [identify_loop, IsMatch]
  by_cases c1 : cstr d = [46]
  · simp [h1.mpr c1, c1]
  · have n1 : ¬ strcmp d [46] = 0 := fun h => c1 (h1.mp h)
    by_cases c2 : cstr d = [46, 46]
    · simp [n1, h2.mpr c2, c2]
    · have n2 : ¬ strcmp d [46, 46] = 0 := fun h => c2 (h2.mp h)
      rw [if_neg n1, if_neg n2]
      rcases Option.eq_none_or_eq_some (fs.stat (name_path fs d)) with hs | ⟨st, hs⟩
      · simp [hs]
      · obtain ⟨a, b⟩ := st
        obtain ⟨x, y⟩ := netst
        by_cases hm : a = x ∧ b = y
        · obtain ⟨ha, hb⟩ := hm
          subst ha
          subst hb
          simp [hs, c1, c2]
        · have hne : ¬ (a, b) = (x, y) := by
            intro h
            exact hm (Prod.mk.inj h)
          simp [hs, c1, c2, hm, hne]

theorem strlcpy_fits (name d : CStr) (len : Int) (h : (strlen d : Int) < len)
    (hint : len < 2 ^ 31) : strlcpy name d (size_t_of_int len) = cstr d := by
  have hl := strlen_eq_length_cstr d
  have hpos : 0 < len := by omega
  have hsz : size_t_of_int len = len.toNat := by
    unfold size_t_of_int
    congr 1
    omega
  have hne : ¬ len.toNat = 0 := by omega
  unfold strlcpy
  rw [hsz, if_neg hne]
  apply List.take_of_length_le
  omega

theorem identify_loop_spec (fs : FsEnv) (netst : Nat × Nat) (len : Int) (hint : len < 2 ^ 31)
    (entries : List CStr) (hlen : ∀ e ∈ entries, (strlen e : Int) < len) (name : CStr) :
    (identify_loop fs netst len entries name = name ∧ ∀ e ∈ entries, ¬ IsMatch fs netst e) ∨
    ∃ e ∈ entries, IsMatch fs netst e ∧ identify_loop fs netst len entries name = cstr e := by
  induction entries generalizing name with
  | nil => exact Or.inl ⟨rfl, by simp⟩
  | cons d rest ih =>
    have hrest : ∀ e ∈ rest, (strlen e : Int) < len :=
      fun e he => hlen e (List.mem_cons_of_mem _ he)
    rw [identify_loop_cons]
    by_cases hm : IsMatch fs netst d
    · rw [if_pos hm, strlcpy_fits name d len (hlen d (List.mem_cons_self _ _)) hint]
      rcases ih hrest (cstr d) with ⟨h1, _⟩ | ⟨e, he, hme, hres⟩
      · exact Or.inr ⟨d, List.mem_cons_self _ _, hm, h1⟩
      · exact Or.inr ⟨e, List.mem_cons_of_mem _ he, hme, hres⟩
    · rw [if_neg hm]
      rcases ih hrest name with ⟨h1, h2⟩ | ⟨e, he, hme, hres⟩
      · refine Or.inl ⟨h1, ?_⟩
        intro e he
        rcases List.mem_cons.mp he with h | h
        · subst h
          exact hm
        · exact h2 e h
      · exact Or.inr ⟨e, List.mem_cons_of_mem _ he, hme, hres⟩

/-- C6: when `/proc/<pid>/ns/net` can be opened and stat'ed, the registry
directory can be listed, and the buffer length `len` exceeds the length of
every entry name, `netns_identify_pid` returns 0; if some entry other than
"." and ".." stats to the same `(st_dev, st_ino)` as the namespace file, the
output name is the name of such an entry (of the only one when exactly one
matches); if no entry matches, the output name is empty. -/
theorem netns_identify_pid_found (fs : FsEnv) (pidstr : CStr) (len : Int) (netst : Nat × Nat)
    (entries : List CStr)
    (hopen : 0 ≤ fs.open_ (net_path pidstr))
    (hstat : fs.fstat (fs.open_ (net_path pidstr)) = some netst)
    (hdir : fs.opendir fs.NETNS_RUN_DIR = .ok entries)
    (hlen : ∀ e ∈ entries, (strlen e : Int) < len) (hint : len < 2 ^ 31) :
    (netns_identify_pid fs pidstr len).1 = 0 ∧
    ((∃ e ∈ entries, IsMatch fs netst e) →
      ∃ e ∈ entries, IsMatch fs netst e ∧ (netns_identify_pid fs pidstr len).2 = cstr e) ∧
    (∀ e ∈ entries, IsMatch fs netst e → (∀ e' ∈ entries, IsMatch fs netst e' → e' = e) →
      (netns_identify_pid fs pidstr len).2 = cstr e) ∧
    ((∀ e ∈ entries, ¬ IsMatch fs netst e) → (netns_identify_pid fs pidstr len).2 = []) := by
  have hno : ¬ fs.open_ (net_path pidstr) < 0 := by omega
  have heq : netns_identify_pid fs pidstr len = (0, identify_loop fs netst len entries []) := by
    simp [netns_identify_pid, hno, hstat, hdir]
  rw [heq]
  have hspec := identify_loop_spec fs netst len hint entries hlen []
  refine ⟨rfl, ?_, ?_, ?_⟩
  · rintro ⟨e, he, hme⟩
    rcases hspec with ⟨_, h2⟩ | h
    · exact absurd hme (h2 e he)
    · exact h
  · intro e he hme huniq
    rcases hspec with ⟨_, h2⟩ | ⟨e', he', hme', hres⟩
    · exact absurd hme (h2 e he)
    · rw [← huniq e' he' hme']
      exact hres
  · intro hnone
    rcases hspec with ⟨h1, _⟩ | ⟨e', he', hme', _⟩
    · exact h1
    · exact absurd hme' (hnone e' he')

/-- C9 (amended): if the registry directory does not exist (`opendir` fails
with `ENOENT`), then for every pid string whose `/proc/<pid>/ns/net` can be
opened and stat'ed `netns_identify_pid` returns 0 with the empty name; when
that file cannot be opened or stat'ed it returns -1 with the empty name. -/
theorem netns_identify_pid_no_registry (fs : FsEnv) (pidstr : CStr) (len : Int)
    (hdir : fs.opendir fs.NETNS_RUN_DIR = .enoent) :
    netns_identify_pid fs pidstr len =
      if fs.open_ (net_path pidstr) < 0 ∨ fs.fstat (fs.open_ (net_path pidstr)) = none then
        (-1, [])
      else (0, []) := by
  unfold netns_identify_pid
  by_cases ho : fs.open_ (net_path pidstr) < 0
  · simp [ho]
  · cases hs : fs.fstat (fs.open_ (net_path pidstr)) with
    | none => simp [ho, hs]
    | some st => simp [ho, hs, hdir]

/-- C1 at the request `red false`: the command ends with status 1,
`netns_exec` returns -1 and the final status is 1. -/
theorem netns_exec_single_target_witness :
    (2 : Int) ≤ 2 ∧
    netns_exec env_lp64 0 0 2 [ascii "red", ascii "false"] State.init =
      (.ret (-1),
        { State.init with trace :=
            [.cmd_exec (some (ascii "false")) [ascii "false"] false .do_switch
               (some (ascii "red")),
             .vrf_reset, .netns_switch (some (ascii "red"))] }) ∧
    do_cmd_status (-1) = 1 :=
  have h := netns_exec_single_target env_lp64 0 2 [ascii "red", ascii "false"] State.init 1
    (by decide) (by decide) rfl
  ⟨by decide, h.1, h.2.2.2⟩

/-- C2 as stated fails in broadcast mode: with `do_all` set the argument
`/bin/true`, which is not a valid namespace name, is not rejected;
`netns_foreach` and `cmd_exec` are called and `do_netns` returns 0. -/
theorem do_netns_broadcast_not_rejected :
    invalid_name (ascii "/bin/true") ≠ 0 ∧
    strcat_argv env_mapped [ascii "exec", ascii "/bin/true"] 4194311 =
      some [ascii "exec", ascii "/bin/true"] ∧
    (do_netns env_mapped 1 0 2 [ascii "exec", ascii "/bin/true"] State.init).1 = .ret 0 ∧
    (do_netns env_mapped 1 0 2 [ascii "exec", ascii "/bin/true"] State.init).2.trace.filter
        Event.isExecStep =
      [.netns_foreach,
       .cmd_exec (some (ascii "/bin/true")) [ascii "/bin/true"] true .do_switch
         (some (ascii "red")),
       .netns_switch (some (ascii "red")),
       .cmd_exec (some (ascii "/bin/true")) [ascii "/bin/true"] true .do_switch
         (some (ascii "blue")),
       .netns_switch (some (ascii "blue"))] := by
  decide

/-- C2 (amended) at the single-target request `exec a/b true`: the name check
is reached and ends the process in `exit(-1)`. -/
theorem do_netns_invalid_name_single_witness :
    invalid_name (ascii "a/b") ≠ 0 ∧
    do_netns env_mapped 0 0 3 [ascii "exec", ascii "a/b", ascii "true"] State.init =
      (.exit (-1),
        { rtnsh_fd := 4, have_rtnl_getnsid := -1,
          trace := [.rtnl_open, .shmget 9, .shmat 4194311, .strcat 4194311, .make_iflist,
            .stderr "Invalid netns name"] }) :=
  ⟨by decide,
    (do_netns_invalid_name_single env_mapped 0 3 [ascii "exec", ascii "a/b", ascii "true"]
      State.init [ascii "exec", ascii "a/b", ascii "true"]
      { rtnsh_fd := 4, have_rtnl_getnsid := -1,
        trace := [.rtnl_open, .shmget 9, .shmat 4194311, .strcat 4194311, .make_iflist] }
      (ascii "a/b") (by decide) (by decide) rfl (by decide)).1⟩

/-- C5 at the broadcast request `true` with the names "red" and "blue". -/
theorem netns_exec_broadcast_witness :
    (1 : Int) ≠ 0 ∧ (1 : Int) ≤ 1 ∧
    netns_exec env_lp64 1 0 1 [ascii "true"] State.init =
      (.ret 0, { State.init with trace := State.init.trace ++
        Event.netns_foreach :: env_lp64.netns_names.flatMap (broadcast_events [ascii "true"]) }) ∧
    (Event.netns_foreach :: env_lp64.netns_names.flatMap
        (broadcast_events [ascii "true"])).filter Event.isCmdExec =
      env_lp64.netns_names.map
        (fun n => Event.cmd_exec [ascii "true"][0]? [ascii "true"] true .do_switch (some n)) :=
  ⟨by decide, by decide,
    netns_exec_broadcast env_lp64 1 0 1 [ascii "true"] State.init (by decide) (by decide)
      (fun _ => ⟨1, rfl⟩)⟩

/-- C6 at process 1 of `fs_two`: the only matching entry is "blue". -/
theorem netns_identify_pid_found_witness :
    IsMatch fs_two (4, 4026532008) (ascii "blue") ∧
    (netns_identify_pid fs_two (ascii "1") 256).1 = 0 ∧
    (netns_identify_pid fs_two (ascii "1") 256).2 = ascii "blue" :=
  have h := netns_identify_pid_found fs_two (ascii "1") 256 (4, 4026532008)
    [ascii ".", ascii "..", ascii "red", ascii "blue"]
    (by decide) (by decide) (by decide) (by decide) (by decide)
  ⟨by decide, h.1, h.2.2.1 (ascii "blue") (by decide) (by decide) (by decide)⟩

/-- C9 as stated fails for a pid whose namespace file cannot be opened: with
the registry directory absent, `netns_identify_pid` returns -1. -/
theorem netns_identify_pid_unreadable_pid :
    fs_no_registry.opendir fs_no_registry.NETNS_RUN_DIR = .enoent ∧
    fs_no_registry.open_ (net_path (ascii "4242")) < 0 ∧
    netns_identify_pid fs_no_registry (ascii "4242") 256 = (-1, []) := by
  decide

/-- C9 (amended) at process 1 of `fs_no_registry`. -/
theorem netns_identify_pid_no_registry_witness :
    fs_no_registry.opendir fs_no_registry.NETNS_RUN_DIR = .enoent ∧
    netns_identify_pid fs_no_registry (ascii "1") 256 = (0, []) :=
  have h := netns_identify_pid_no_registry fs_no_registry (ascii "1") 256 rfl
  ⟨rfl, h.trans (by decide)⟩

/-- C7 fails on the code: the first call of `netns_nsid_socket_init` from the
initial state makes no probe call, opens the control socket (`rtnl_open`)
and leaves `have_rtnl_getnsid` at -1 (Unprobed), in every environment. -/
theorem socket_init_opens_while_unprobed (env : Env) :
    (netns_nsid_socket_init env State.init).2.trace.take 1 = [.rtnl_open] ∧
    (netns_nsid_socket_init env State.init).2.trace.filter Event.isProbe = [] ∧
    (netns_nsid_socket_init env State.init).2.have_rtnl_getnsid = -1 := by
  by_cases h : env.rtnl_open < 0
  · simp [netns_nsid_socket_init, ipnetns_have_nsid, State.init, State.emit, h, Event.isProbe]
  · simp [netns_nsid_socket_init, ipnetns_have_nsid, State.init, State.emit, h, Event.isProbe]

/-- C10 fails on the code: the size `do_netns` passes to `shmget` is
`sizeof(nic) + 1` for the pointer `nic`, 9 bytes with 8-byte pointers and 5
bytes with 4-byte pointers, less than the 24576 bytes of one
`struct nic_info`. -/
theorem do_netns_shmget_size_too_small :
    (do_netns env_lp64 0 0 3 [ascii "exec", ascii "red", ascii "true"]
        State.init).2.trace.take 2 = [.rtnl_open, .shmget 9] ∧
    (do_netns env_ilp32 0 0 3 [ascii "exec", ascii "red", ascii "true"]
        State.init).2.trace.take 2 = [.rtnl_open, .shmget 5] ∧
    sizeof_struct_nic_info = 24576 ∧
    9 < sizeof_struct_nic_info := by
  decide

end Ipnetns
